import Mathlib

/-!
Shallow embedding of the MPU-6050 driver (`src/mpu6050/mpu6050.py`) and of
the sample loop (`src/test.py`)'s use of it, together with theorems settling
the frozen claims about the driver.

Modelling conventions:
* A byte-read bus is a function `bus : Nat → Option Nat`: `bus r = some b`
  means `read_byte_data(address, r)` returns byte `b`, and `bus r = none`
  means that transaction raises `OSError`.
* Python `None` is `Option.none`; a raised-and-uncaught exception is the
  `raised` constructor of `PyResult`.
* Python floats are modelled by exact rationals `ℚ` (the claims under study
  are control-flow and exact-value claims, not rounding claims).
* `read_i2c_word` additionally returns the list of registers at which a
  byte-read transaction was actually issued, so that frame claims about
  which transactions happen can be stated; the first component is exactly
  the Python return value.
-/

/-- Python exceptions relevant to the driver paths under study. -/
inductive PyExc where
  | typeError
  | valueError
  | zeroDivisionError
  | osError
  deriving DecidableEq, Repr

/-- Outcome of running a Python expression or call: a value, or a raised
exception that propagates to the caller. -/
inductive PyResult (α : Type) where
  | ok (a : α)
  | raised (e : PyExc)
  deriving DecidableEq, Repr

/-- `mpu6050.read_i2c_word(register)` (mpu6050.py lines 104-127).

Reads the byte at `register` (high) and at `register + 1` (low); either
`OSError` is caught and turned into a `None` return.  On success the
big-endian word `(high << 8) + low` is sign-corrected: values `≥ 0x8000`
return `-((65535 - value) + 1)`.

The second component instruments the reads: the registers at which a
byte-read transaction was issued, in order. -/
def read_i2c_word (bus : Nat → Option Nat) (register : Nat) :
    Option ℤ × List Nat :=
  match bus register with
  | none => (none, [register])
  | some high =>
    match bus (register + 1) with
    | none => (none, [register, register + 1])
    | some low =>
      let value : ℤ := (high : ℤ) * 2 ^ 8 + (low : ℤ)
      if value ≥ 0x8000 then
        (some (-((65535 - value) + 1)), [register, register + 1])
      else
        (some value, [register, register + 1])

/-- The spec's statement of two's-complement reconstruction of a 16-bit
word: the value itself below `0x8000`, value − 65536 from `0x8000` up. -/
def twosComplement16 (v : Nat) : ℤ :=
  if v < 0x8000 then (v : ℤ) else (v : ℤ) - 65536

/-- A bus holding byte `h` at register 0 and byte `l` at register 1, failing
everywhere else. -/
def twoByteBus (h l : Nat) : Nat → Option Nat :=
  fun r => if r = 0 then some h else if r = 1 then some l else none

/-! ## Configuration state, range maps, and the range setters -/

/-- `GRAVITIY_MS2 = 9.80665` (mpu6050.py line 19; the source's spelling). -/
def GRAVITIY_MS2 : ℚ := 980665 / 100000

/-- `ACCEL_SCALE_MAP` (mpu6050.py lines 27-30): range name to LSB-per-g
scale modifier; `dict.get` returns `None` on a missing key. -/
def ACCEL_SCALE_MAP (r : String) : Option ℚ :=
  if r = "2g" then some 16384
  else if r = "4g" then some 8192
  else if r = "8g" then some 4096
  else if r = "16g" then some 2048
  else none

/-- `GYRO_SCALE_MAP` (mpu6050.py lines 37-40). -/
def GYRO_SCALE_MAP (r : String) : Option ℚ :=
  if r = "250deg" then some 131
  else if r = "500deg" then some (131 / 2)
  else if r = "1000deg" then some (164 / 5)
  else if r = "2000deg" then some (82 / 5)
  else none

/-- `ACCEL_RANGE_MAP` (mpu6050.py lines 48-51): range name to the device
register code. -/
def ACCEL_RANGE_MAP (r : String) : Option Nat :=
  if r = "2g" then some 0x00
  else if r = "4g" then some 0x08
  else if r = "8g" then some 0x10
  else if r = "16g" then some 0x18
  else none

/-- `GYRO_RANGE_MAP` (mpu6050.py lines 60-63). -/
def GYRO_RANGE_MAP (r : String) : Option Nat :=
  if r = "250deg" then some 0x00
  else if r = "500deg" then some 0x08
  else if r = "1000deg" then some 0x10
  else if r = "2000deg" then some 0x18
  else none

/-- Register constants (mpu6050.py lines 66-90). -/
def PWR_MGMT_1 : Nat := 0x6B

def ACCEL_XOUTH : Nat := 0x3B

def ACCEL_YOUTH : Nat := 0x3D

def ACCEL_ZOUTH : Nat := 0x3F

def TEMP_OUTH : Nat := 0x41

def GYRO_XOUTH : Nat := 0x43

def GYRO_YOUTH : Nat := 0x45

def GYRO_ZOUTH : Nat := 0x47

def ACCEL_CONFIG : Nat := 0x1C

def GYRO_CONFIG : Nat := 0x1B

/-- The mutable configuration the driver instance stores across calls:
`self.accel_range` and `self.gyro_range`. -/
structure DriverState where
  accel_range : String
  gyro_range : String
  deriving DecidableEq, Repr

/-- One `write_byte_data(address, reg, value)` transaction, as issued. -/
structure WriteOp where
  reg : Nat
  val : Nat
  deriving DecidableEq, Repr

/-- `mpu6050.set_accel_range(accel_range)` (mpu6050.py lines 145-162).

`busOk n` tells whether the `n`-th write transaction issued by this call
succeeds (`false` models `write_byte_data` raising `OSError`, which the
method does not catch).  Returns the outcome (normal return, the
`ValueError` raised on an invalid range name, or the propagated `OSError`),
the state after the call, and the writes issued in order. -/
def set_accel_range (busOk : Nat → Bool) (st : DriverState)
    (accel_range : String) : PyResult Unit × DriverState × List WriteOp :=
  match ACCEL_RANGE_MAP accel_range with
  | none => (.raised .valueError, st, [])
  | some code =>
    if busOk 0 then
      if busOk 1 then
        (.ok (), { st with accel_range := accel_range },
          [⟨ACCEL_CONFIG, 0x00⟩, ⟨ACCEL_CONFIG, code⟩])
      else
        (.raised .osError, st, [⟨ACCEL_CONFIG, 0x00⟩, ⟨ACCEL_CONFIG, code⟩])
    else
      (.raised .osError, st, [⟨ACCEL_CONFIG, 0x00⟩])

/-- `mpu6050.set_gyro_range(gyro_range)` (mpu6050.py lines 194-211),
modelled exactly like `set_accel_range` but over the gyro maps and
`GYRO_CONFIG`. -/
def set_gyro_range (busOk : Nat → Bool) (st : DriverState)
    (gyro_range : String) : PyResult Unit × DriverState × List WriteOp :=
  match GYRO_RANGE_MAP gyro_range with
  | none => (.raised .valueError, st, [])
  | some code =>
    if busOk 0 then
      if busOk 1 then
        (.ok (), { st with gyro_range := gyro_range },
          [⟨GYRO_CONFIG, 0x00⟩, ⟨GYRO_CONFIG, code⟩])
      else
        (.raised .osError, st, [⟨GYRO_CONFIG, 0x00⟩, ⟨GYRO_CONFIG, code⟩])
    else
      (.raised .osError, st, [⟨GYRO_CONFIG, 0x00⟩])

/-- `mpu6050.__init__(address, bus)` (mpu6050.py lines 92-102): wake-up
write of `0x00` to `PWR_MGMT_1`, then `set_accel_range('4g')`, then
`set_gyro_range('500deg')`.  `busOk` indexes all write transactions of the
construction in order; any uncaught exception aborts construction, so a
fully constructed instance exists only when every step returned normally. -/
def mpu6050_init (busOk : Nat → Bool) : Option DriverState :=
  if busOk 0 then
    match set_accel_range (fun n => busOk (n + 1)) ⟨"", ""⟩ "4g" with
    | (.ok _, st1, _) =>
      match set_gyro_range (fun n => busOk (n + 3)) st1 "500deg" with
      | (.ok _, st2, _) => some st2
      | _ => none
    | _ => none
  else none

/-! ## Read operations -/

/-- `mpu6050.get_temp()` (mpu6050.py lines 129-143): reads the raw word at
`TEMP_OUTH` and returns `raw / 340.0 + 36.53`.  The method performs no
check on the raw read: when `read_i2c_word` returned `None`, the Python
expression `None / 340.0` raises `TypeError`, which propagates. -/
def get_temp (bus : Nat → Option Nat) : PyResult ℚ :=
  match (read_i2c_word bus TEMP_OUTH).1 with
  | none => .raised .typeError
  | some raw_temp => .ok ((raw_temp : ℚ) / 340 + 3653 / 100)

/-- The `{'x': ..., 'y': ..., 'z': ...}` dictionary returned by the vector
reads: each field is a number or Python `None`. -/
structure Vec3 where
  x : Option ℚ
  y : Option ℚ
  z : Option ℚ
  deriving DecidableEq, Repr

/-- `mpu6050.get_accel_data()` (mpu6050.py lines 164-181): reads the raw
words at the three accel high-byte registers, then converts the list by
`[i / ACCEL_SCALE_MAP.get(self.accel_range) * GRAVITIY_MS2 for i in xyz]`
inside `try`.  If any list element is `None` (a failed axis read) or the
scale lookup returned `None`, the comprehension raises `TypeError`, which
is caught and replaced by `[None, None, None]`; the comprehension
evaluates no further element after the raise, so no partial list is kept. -/
def get_accel_data (bus : Nat → Option Nat) (st : DriverState) : Vec3 :=
  let rx := (read_i2c_word bus ACCEL_XOUTH).1
  let ry := (read_i2c_word bus ACCEL_YOUTH).1
  let rz := (read_i2c_word bus ACCEL_ZOUTH).1
  match ACCEL_SCALE_MAP st.accel_range, rx, ry, rz with
  | some s, some x, some y, some z =>
    ⟨some ((x : ℚ) / s * GRAVITIY_MS2), some ((y : ℚ) / s * GRAVITIY_MS2),
      some ((z : ℚ) / s * GRAVITIY_MS2)⟩
  | _, _, _, _ => ⟨none, none, none⟩

/-- `mpu6050.get_gyro_data()` (mpu6050.py lines 213-227): same structure
over the gyro registers and `GYRO_SCALE_MAP`, without the gravity
multiplier. -/
def get_gyro_data (bus : Nat → Option Nat) (st : DriverState) : Vec3 :=
  let rx := (read_i2c_word bus GYRO_XOUTH).1
  let ry := (read_i2c_word bus GYRO_YOUTH).1
  let rz := (read_i2c_word bus GYRO_ZOUTH).1
  match GYRO_SCALE_MAP st.gyro_range, rx, ry, rz with
  | some s, some x, some y, some z =>
    ⟨some ((x : ℚ) / s), some ((y : ℚ) / s), some ((z : ℚ) / s)⟩
  | _, _, _, _ => ⟨none, none, none⟩

/-- The value returned on `calculate_angle`'s success path, kept symbolic:
`⟨y, sumSq⟩` denotes the real number `acos(y / sqrt sumSq) * 180 / π`
(the source computes it with floating-point `acos`, `sqrt`, `pi`). -/
structure AngleExpr where
  y : ℚ
  sumSq : ℚ
  deriving DecidableEq, Repr

/-- `mpu6050.calculate_angle(xyz)` (mpu6050.py lines 183-192): evaluates
`acos(xyz['y'] / sqrt(xyz['x']**2 + xyz['y']**2 + xyz['z']**2)) * 180 / pi`
inside `try`, with `except (ValueError, TypeError): angle = None`.

Branches, in the evaluation order of the Python expression:
* any component `None` makes `**` raise `TypeError`, caught, returns `None`;
* `sqrt` of the sum of squares equal to zero (exactly when the sum of
  squares is zero) makes `/` raise `ZeroDivisionError`, which the `except`
  clause does NOT list, so it propagates to the caller;
* a quotient outside `[-1, 1]` (in exact arithmetic: `y² > x² + y² + z²`)
  makes `acos` raise `ValueError`, caught, returns `None`;
* otherwise the angle is returned. -/
def calculate_angle (v : Vec3) : PyResult (Option AngleExpr) :=
  match v.x, v.y, v.z with
  | some x, some y, some z =>
    let sumSq := x ^ 2 + y ^ 2 + z ^ 2
    if sumSq = 0 then .raised .zeroDivisionError
    else if y ^ 2 > sumSq then .ok none
    else .ok (some ⟨y, sumSq⟩)
  | _, _, _ => .ok none

/-- The invariant of §3 of the spec: the stored ranges are always among the
enumerated map keys. -/
def RangesValid (st : DriverState) : Prop :=
  (st.accel_range = "2g" ∨ st.accel_range = "4g" ∨ st.accel_range = "8g" ∨
    st.accel_range = "16g") ∧
  (st.gyro_range = "250deg" ∨ st.gyro_range = "500deg" ∨
    st.gyro_range = "1000deg" ∨ st.gyro_range = "2000deg")

/-! ## Helper lemmas -/

/-- When both byte reads succeed, `read_i2c_word` returns exactly the
two's-complement value of the big-endian word. -/
theorem read_i2c_word_some (bus : Nat → Option Nat) (reg h l : Nat)
    (hh : bus reg = some h) (hl : bus (reg + 1) = some l) :
    (read_i2c_word bus reg).1 = some (twosComplement16 (h * 256 + l)) := by
  simp only [read_i2c_word, hh, hl, twosComplement16]
  have hcast : (h : ℤ) * 2 ^ 8 + (l : ℤ) = ((h * 256 + l : Nat) : ℤ) := by
    push_cast; ring
  by_cases hc : ((h : ℤ) * 2 ^ 8 + (l : ℤ)) ≥ 0x8000
  · rw [if_pos hc]
    have : ¬ (h * 256 + l < 0x8000) := by
      rw [hcast] at hc
      exact_mod_cast fun hlt => absurd hc (by exact_mod_cast not_le.mpr (by exact_mod_cast hlt))
    rw [if_neg this]
    simp only [Option.some.injEq]
    rw [← hcast]; ring
  · rw [if_neg hc]
    have : h * 256 + l < 0x8000 := by
      rw [hcast] at hc
      exact_mod_cast lt_of_not_le (fun hle => hc (by exact_mod_cast hle))
    rw [if_pos this]
    simp only [Option.some.injEq]
    rw [← hcast]

/-- A range name mapped by `ACCEL_RANGE_MAP` is one of the four keys. -/
theorem accel_range_map_keys {r : String} {c : Nat}
    (h : ACCEL_RANGE_MAP r = some c) :
    r = "2g" ∨ r = "4g" ∨ r = "8g" ∨ r = "16g" := by
  unfold ACCEL_RANGE_MAP at h
  split_ifs at h with h1 h2 h3 h4 <;> simp_all

/-- A range name mapped by `GYRO_RANGE_MAP` is one of the four keys. -/
theorem gyro_range_map_keys {r : String} {c : Nat}
    (h : GYRO_RANGE_MAP r = some c) :
    r = "250deg" ∨ r = "500deg" ∨ r = "1000deg" ∨ r = "2000deg" := by
  unfold GYRO_RANGE_MAP at h
  split_ifs at h with h1 h2 h3 h4 <;> simp_all

/-! ## Claims -/

/-- C1.  The claim says `calculate_angle` never raises and returns an
absent result when the magnitude is zero.  The code's `except` clause
catches only `ValueError` and `TypeError`: on the all-zero vector the
division `xyz['y'] / sqrt(0.0)` raises `ZeroDivisionError`, which is not
caught and propagates to the caller.  This theorem evaluates the embedded
function at that failing input. -/
theorem C1_calculate_angle_zero_magnitude_raises :
    calculate_angle ⟨some 0, some 0, some 0⟩ = .raised .zeroDivisionError := by
  norm_num [calculate_angle]

/-- C2.  For every successfully read byte pair, `read_i2c_word` returns the
two's-complement signed 16-bit value of `high * 256 + low` (the value when
below `0x8000`, value − 65536 otherwise); in particular `(0x7F, 0xFF)`
gives 32767, `(0x80, 0x00)` gives −32768, `(0xFF, 0xFF)` gives −1 and
`(0x00, 0x00)` gives 0. -/
theorem C2_read_i2c_word_twos_complement :
    (∀ h l : Nat, h ≤ 255 → l ≤ 255 →
      (read_i2c_word (twoByteBus h l) 0).1 = some (twosComplement16 (h * 256 + l))) ∧
    (read_i2c_word (twoByteBus 0x7F 0xFF) 0).1 = some 32767 ∧
    (read_i2c_word (twoByteBus 0x80 0x00) 0).1 = some (-32768) ∧
    (read_i2c_word (twoByteBus 0xFF 0xFF) 0).1 = some (-1) ∧
    (read_i2c_word (twoByteBus 0x00 0x00) 0).1 = some 0 := by
  refine ⟨fun h l _ _ => read_i2c_word_some _ 0 h l rfl rfl, ?_, ?_, ?_, ?_⟩ <;> decide

theorem C2_read_i2c_word_twos_complement_witness :
    (read_i2c_word (twoByteBus 0x12 0x34) 0).1 = some (twosComplement16 (0x12 * 256 + 0x34)) :=
  C2_read_i2c_word_twos_complement.1 0x12 0x34 (by decide) (by decide)

/-- C4.  The claim says `get_temp` fails with exactly the failure result of
the underlying raw word read.  In the code, `read_i2c_word` turns the bus
`OSError` into a `None` return, and `get_temp` then evaluates
`None / 340.0`, which raises `TypeError` — a different fault from the raw
read's failure result.  Evaluated here on a bus whose byte read at the
temperature register fails. -/
theorem C4_get_temp_fails_with_different_fault :
    (read_i2c_word (fun _ => none) TEMP_OUTH).1 = none ∧
    get_temp (fun _ => none) = .raised .typeError := by
  exact ⟨rfl, rfl⟩

/-- C10.  If the high-byte read at `register` fails, `read_i2c_word` issues
no further transaction (exactly one byte read happens), and the low-byte
read at `register + 1` is issued only when the high-byte read succeeded. -/
theorem C10_low_read_only_after_high_succeeds :
    ∀ (bus : Nat → Option Nat) (reg : Nat),
      (bus reg = none → (read_i2c_word bus reg).2 = [reg]) ∧
      (reg + 1 ∈ (read_i2c_word bus reg).2 → (bus reg).isSome) := by
  intro bus reg
  constructor
  · intro hfail
    simp [read_i2c_word, hfail]
  · intro hmem
    cases hhigh : bus reg with
    | none =>
      simp [read_i2c_word, hhigh] at hmem
    | some h => simp

theorem C10_low_read_only_after_high_succeeds_witness :
    (read_i2c_word (fun _ => none) 0x3B).2 = [0x3B] :=
  (C10_low_read_only_after_high_succeeds (fun _ => none) 0x3B).1 rfl

/-- C3.  In both vector reads, if any one axis raw read fails the returned
record has all three of x, y, z absent, and if all three succeed all three
fields are converted numbers — no partial vector, under a stored range
whose scale lookup succeeds. -/
theorem C3_vector_reads_all_or_nothing :
    ∀ (bus : Nat → Option Nat) (st : DriverState),
      (ACCEL_SCALE_MAP st.accel_range).isSome →
      (GYRO_SCALE_MAP st.gyro_range).isSome →
      (((read_i2c_word bus ACCEL_XOUTH).1 = none ∨
        (read_i2c_word bus ACCEL_YOUTH).1 = none ∨
        (read_i2c_word bus ACCEL_ZOUTH).1 = none) →
          get_accel_data bus st = ⟨none, none, none⟩) ∧
      ((read_i2c_word bus ACCEL_XOUTH).1.isSome →
       (read_i2c_word bus ACCEL_YOUTH).1.isSome →
       (read_i2c_word bus ACCEL_ZOUTH).1.isSome →
          (get_accel_data bus st).x.isSome ∧ (get_accel_data bus st).y.isSome ∧
          (get_accel_data bus st).z.isSome) ∧
      (((read_i2c_word bus GYRO_XOUTH).1 = none ∨
        (read_i2c_word bus GYRO_YOUTH).1 = none ∨
        (read_i2c_word bus GYRO_ZOUTH).1 = none) →
          get_gyro_data bus st = ⟨none, none, none⟩) ∧
      ((read_i2c_word bus GYRO_XOUTH).1.isSome →
       (read_i2c_word bus GYRO_YOUTH).1.isSome →
       (read_i2c_word bus GYRO_ZOUTH).1.isSome →
          (get_gyro_data bus st).x.isSome ∧ (get_gyro_data bus st).y.isSome ∧
          (get_gyro_data bus st).z.isSome) := by
  intro bus st ha hg
  obtain ⟨sa, hsa⟩ := Option.isSome_iff_exists.mp ha
  obtain ⟨sg, hsg⟩ := Option.isSome_iff_exists.mp hg
  refine ⟨?_, ?_, ?_, ?_⟩
  · intro hfail
    cases hrx : (read_i2c_word bus ACCEL_XOUTH).1 <;>
      cases hry : (read_i2c_word bus ACCEL_YOUTH).1 <;>
        cases hrz : (read_i2c_word bus ACCEL_ZOUTH).1 <;>
          simp_all [get_accel_data]
  · intro hx hy hz
    obtain ⟨x, hrx⟩ := Option.isSome_iff_exists.mp hx
    obtain ⟨y, hry⟩ := Option.isSome_iff_exists.mp hy
    obtain ⟨z, hrz⟩ := Option.isSome_iff_exists.mp hz
    simp [get_accel_data, hsa, hrx, hry, hrz]
  · intro hfail
    cases hrx : (read_i2c_word bus GYRO_XOUTH).1 <;>
      cases hry : (read_i2c_word bus GYRO_YOUTH).1 <;>
        cases hrz : (read_i2c_word bus GYRO_ZOUTH).1 <;>
          simp_all [get_gyro_data]
  · intro hx hy hz
    obtain ⟨x, hrx⟩ := Option.isSome_iff_exists.mp hx
    obtain ⟨y, hry⟩ := Option.isSome_iff_exists.mp hy
    obtain ⟨z, hrz⟩ := Option.isSome_iff_exists.mp hz
    simp [get_gyro_data, hsg, hrx, hry, hrz]

theorem C3_vector_reads_all_or_nothing_witness :
    get_accel_data (fun _ => none) ⟨"2g", "250deg"⟩ = ⟨none, none, none⟩ ∧
    get_gyro_data (fun _ => none) ⟨"2g", "250deg"⟩ = ⟨none, none, none⟩ :=
  ⟨(C3_vector_reads_all_or_nothing (fun _ => none) ⟨"2g", "250deg"⟩ (by decide)
      (by decide)).1 (Or.inl rfl),
   (C3_vector_reads_all_or_nothing (fun _ => none) ⟨"2g", "250deg"⟩ (by decide)
      (by decide)).2.2.1 (Or.inl rfl)⟩

/-- C6.  A range argument outside the enumerated map keys makes the setter
raise `ValueError` before any bus write: the stored ranges are unchanged
and the list of issued writes is empty. -/
theorem C6_invalid_range_rejected :
    (∀ (busOk : Nat → Bool) (st : DriverState) (r : String),
        ACCEL_RANGE_MAP r = none →
        set_accel_range busOk st r = (.raised .valueError, st, [])) ∧
    (∀ (busOk : Nat → Bool) (st : DriverState) (r : String),
        GYRO_RANGE_MAP r = none →
        set_gyro_range busOk st r = (.raised .valueError, st, [])) := by
  constructor
  · intro busOk st r h
    simp [set_accel_range, h]
  · intro busOk st r h
    simp [set_gyro_range, h]

theorem C6_invalid_range_rejected_witness :
    set_accel_range (fun _ => true) ⟨"2g", "250deg"⟩ "5g" =
      (.raised .valueError, ⟨"2g", "250deg"⟩, []) ∧
    set_gyro_range (fun _ => true) ⟨"2g", "250deg"⟩ "5000deg" =
      (.raised .valueError, ⟨"2g", "250deg"⟩, []) :=
  ⟨C6_invalid_range_rejected.1 (fun _ => true) ⟨"2g", "250deg"⟩ "5g" (by decide),
   C6_invalid_range_rejected.2 (fun _ => true) ⟨"2g", "250deg"⟩ "5000deg" (by decide)⟩

/-- C7.  `get_temp` reads its word from the register pair 0x41 (high byte)
and 0x42 (low byte) — `read_i2c_word(TEMP_OUTH)` always reads
`register + 1` for the low byte, so the unused `TEMP_OUTL = 0x41`
constant does not make it read 0x41 twice — and on success returns
`raw / 340.0 + 36.53`; raw word 340 yields 37.53 °C. -/
theorem C7_get_temp_registers_and_formula :
    (∀ (bus : Nat → Option Nat) (h l : Nat),
      bus 0x41 = some h → bus 0x42 = some l →
      get_temp bus = .ok ((twosComplement16 (h * 256 + l) : ℚ) / 340 + 3653 / 100)) ∧
    get_temp (fun r => if r = 0x41 then some 1 else if r = 0x42 then some 84 else none) =
      .ok (3753 / 100) := by
  constructor
  · intro bus h l hh hl
    have hw := read_i2c_word_some bus 0x41 h l hh hl
    simp [get_temp, TEMP_OUTH, hw]
  · norm_num [get_temp, read_i2c_word, TEMP_OUTH]

theorem C7_get_temp_registers_and_formula_witness :
    get_temp (fun r => if r = 0x41 then some 1 else if r = 0x42 then some 84 else none) =
      .ok ((twosComplement16 (1 * 256 + 84) : ℚ) / 340 + 3653 / 100) :=
  C7_get_temp_registers_and_formula.1 _ 1 84 (by decide) (by decide)

/-- C5.  For a valid range argument the setters follow the two-write
protocol on the config register — first 0x00, then the range's device code,
and no other write: the issued-write list is exactly that two-element
sequence when both succeed, and its prefix up to the failing transaction
otherwise.  The stored range field is updated only when both writes
succeed; on either write failure the uncaught bus `OSError` (the spec's
`BusError`) propagates and the stored field is unchanged. -/
theorem C5_set_range_two_write_protocol :
    ∀ (busOk : Nat → Bool) (st : DriverState) (r : String) (code : Nat),
      (ACCEL_RANGE_MAP r = some code →
        (busOk 0 = false →
          set_accel_range busOk st r =
            (.raised .osError, st, [⟨ACCEL_CONFIG, 0x00⟩])) ∧
        (busOk 0 = true → busOk 1 = false →
          set_accel_range busOk st r =
            (.raised .osError, st, [⟨ACCEL_CONFIG, 0x00⟩, ⟨ACCEL_CONFIG, code⟩])) ∧
        (busOk 0 = true → busOk 1 = true →
          set_accel_range busOk st r =
            (.ok (), { st with accel_range := r },
              [⟨ACCEL_CONFIG, 0x00⟩, ⟨ACCEL_CONFIG, code⟩]))) ∧
      (GYRO_RANGE_MAP r = some code →
        (busOk 0 = false →
          set_gyro_range busOk st r =
            (.raised .osError, st, [⟨GYRO_CONFIG, 0x00⟩])) ∧
        (busOk 0 = true → busOk 1 = false →
          set_gyro_range busOk st r =
            (.raised .osError, st, [⟨GYRO_CONFIG, 0x00⟩, ⟨GYRO_CONFIG, code⟩])) ∧
        (busOk 0 = true → busOk 1 = true →
          set_gyro_range busOk st r =
            (.ok (), { st with gyro_range := r },
              [⟨GYRO_CONFIG, 0x00⟩, ⟨GYRO_CONFIG, code⟩]))) := by
  intro busOk st r code
  constructor
  · intro hmap
    refine ⟨fun h0 => ?_, fun h0 h1 => ?_, fun h0 h1 => ?_⟩ <;>
      simp [set_accel_range, hmap, h0, *]
  · intro hmap
    refine ⟨fun h0 => ?_, fun h0 h1 => ?_, fun h0 h1 => ?_⟩ <;>
      simp [set_gyro_range, hmap, h0, *]

theorem C5_set_range_two_write_protocol_witness :
    set_accel_range (fun _ => true) ⟨"2g", "250deg"⟩ "16g" =
      (.ok (), ⟨"16g", "250deg"⟩, [⟨ACCEL_CONFIG, 0x00⟩, ⟨ACCEL_CONFIG, 0x18⟩]) ∧
    set_gyro_range (fun n => n = 0) ⟨"2g", "250deg"⟩ "1000deg" =
      (.raised .osError, ⟨"2g", "250deg"⟩, [⟨GYRO_CONFIG, 0x00⟩, ⟨GYRO_CONFIG, 0x10⟩]) :=
  ⟨((C5_set_range_two_write_protocol (fun _ => true) ⟨"2g", "250deg"⟩ "16g"
      0x18).1 (by decide)).2.2 rfl rfl,
   ((C5_set_range_two_write_protocol (fun n => n = 0) ⟨"2g", "250deg"⟩ "1000deg"
      0x10).2 (by decide)).2.1 (by decide) (by decide)⟩

/-- C8.  The accel scale divisors are 16384.0, 8192.0, 4096.0, 2048.0 for
2g, 4g, 8g, 16g; when all three axis reads succeed each raw value is
converted by `value / divisor * 9.80665`; raw words (16384, 0, 0) at 2g
yield `{x: 9.80665, y: 0, z: 0}`. -/
theorem C8_accel_conversion :
    (ACCEL_SCALE_MAP "2g" = some 16384 ∧ ACCEL_SCALE_MAP "4g" = some 8192 ∧
     ACCEL_SCALE_MAP "8g" = some 4096 ∧ ACCEL_SCALE_MAP "16g" = some 2048) ∧
    (∀ (bus : Nat → Option Nat) (st : DriverState) (s : ℚ) (x y z : ℤ),
      ACCEL_SCALE_MAP st.accel_range = some s →
      (read_i2c_word bus ACCEL_XOUTH).1 = some x →
      (read_i2c_word bus ACCEL_YOUTH).1 = some y →
      (read_i2c_word bus ACCEL_ZOUTH).1 = some z →
      get_accel_data bus st =
        ⟨some ((x : ℚ) / s * GRAVITIY_MS2), some ((y : ℚ) / s * GRAVITIY_MS2),
          some ((z : ℚ) / s * GRAVITIY_MS2)⟩) ∧
    get_accel_data
      (fun r => if r = 0x3B then some 0x40
        else if 0x3C ≤ r ∧ r ≤ 0x40 then some 0 else none)
      ⟨"2g", "250deg"⟩ = ⟨some GRAVITIY_MS2, some 0, some 0⟩ := by
  refine ⟨⟨rfl, rfl, rfl, rfl⟩, ?_, ?_⟩
  · intro bus st s x y z hs hx hy hz
    simp [get_accel_data, hs, hx, hy, hz]
  · norm_num [get_accel_data, read_i2c_word, ACCEL_SCALE_MAP, ACCEL_XOUTH,
      ACCEL_YOUTH, ACCEL_ZOUTH, GRAVITIY_MS2]

theorem C8_accel_conversion_witness :
    get_accel_data (fun _ => some 1) ⟨"4g", "250deg"⟩ =
      ⟨some ((257 : ℚ) / 8192 * GRAVITIY_MS2), some ((257 : ℚ) / 8192 * GRAVITIY_MS2),
        some ((257 : ℚ) / 8192 * GRAVITIY_MS2)⟩ :=
  C8_accel_conversion.2.1 (fun _ => some 1) ⟨"4g", "250deg"⟩ 8192 257 257 257
    (by decide) (by decide) (by decide) (by decide)

/-- C9.  A successfully constructed driver stores ranges among the
enumerated keys, both setters preserve this invariant (they assign only
arguments validated against the range maps), and on any state satisfying
it the scale-divisor lookups of the vector reads succeed. -/
theorem C9_stored_range_invariant :
    (∀ (busOk : Nat → Bool) (st : DriverState),
        mpu6050_init busOk = some st → RangesValid st) ∧
    (∀ (busOk : Nat → Bool) (st : DriverState) (r : String),
        RangesValid st → RangesValid (set_accel_range busOk st r).2.1) ∧
    (∀ (busOk : Nat → Bool) (st : DriverState) (r : String),
        RangesValid st → RangesValid (set_gyro_range busOk st r).2.1) ∧
    (∀ st : DriverState, RangesValid st →
        (ACCEL_SCALE_MAP st.accel_range).isSome ∧
        (GYRO_SCALE_MAP st.gyro_range).isSome) := by
  refine ⟨?_, ?_, ?_, ?_⟩
  · intro busOk st h
    have hst : st = ⟨"4g", "500deg"⟩ := by
      by_cases h0 : busOk 0 <;> by_cases h1 : busOk 1 <;> by_cases h2 : busOk 2 <;>
        by_cases h3 : busOk 3 <;> by_cases h4 : busOk 4 <;>
        simp_all [mpu6050_init, set_accel_range, set_gyro_range, ACCEL_RANGE_MAP,
          GYRO_RANGE_MAP]
    subst hst
    exact ⟨Or.inr (Or.inl rfl), Or.inr (Or.inl rfl)⟩
  · intro busOk st r hv
    cases hmap : ACCEL_RANGE_MAP r with
    | none => simpa [set_accel_range, hmap] using hv
    | some code =>
      have hkey := accel_range_map_keys hmap
      by_cases h0 : busOk 0
      · by_cases h1 : busOk 1
        · simp only [set_accel_range, hmap, h0, h1, if_true]
          exact ⟨hkey, hv.2⟩
        · simp [set_accel_range, hmap, h0, h1]
          exact hv
      · simp [set_accel_range, hmap, h0]
        exact hv
  · intro busOk st r hv
    cases hmap : GYRO_RANGE_MAP r with
    | none => simpa [set_gyro_range, hmap] using hv
    | some code =>
      have hkey := gyro_range_map_keys hmap
      by_cases h0 : busOk 0
      · by_cases h1 : busOk 1
        · simp only [set_gyro_range, hmap, h0, h1, if_true]
          exact ⟨hv.1, hkey⟩
        · simp [set_gyro_range, hmap, h0, h1]
          exact hv
      · simp [set_gyro_range, hmap, h0]
        exact hv
  · intro st hv
    obtain ⟨ha, hg⟩ := hv
    constructor
    · rcases ha with h | h | h | h <;> simp [ACCEL_SCALE_MAP, h]
    · rcases hg with h | h | h | h <;> simp [GYRO_SCALE_MAP, h]

theorem C9_stored_range_invariant_witness :
    mpu6050_init (fun _ => true) = some ⟨"4g", "500deg"⟩ ∧
    RangesValid ⟨"4g", "500deg"⟩ :=
  ⟨by decide,
   C9_stored_range_invariant.1 (fun _ => true) ⟨"4g", "500deg"⟩ (by decide)⟩
